import Mathlib

/-!
# Reset path of `qemu_riscv32/example/startup.c`

The file holds two routines.  `_reset` (naked, placed in `.init`) loads the
global pointer and the stack pointer from two linker symbols and calls
`_start`; `_start` calls the externally defined `main`.

The embedding has two levels.  The first follows the source statements: an
`asm volatile` statement `la rd, sym` is a write of the symbol's address to
register `rd`, and a C call is a transfer of control (`_reset`, `_start`,
`atMain`).  It decides what holds in every build: the value of `gp`, the
CSRs, the linker symbols the path depends on, the absence of a `.data` copy
and of `.bss` zeroing.  The second level (`_reset_built`, `_start_built`,
`entryBuilt`) describes the instructions of a build: a call sets `ra`, the
non-naked `_start` may keep a stack frame or be expanded in `_reset`, and
`main` may return.  It decides the value of `sp` at entry into `main`, the
operations performed on the path and what happens after `main`.
The external `main` is a parameter of the routines at both levels.
-/

namespace Startup

/-- Linker symbols declared `extern` in lines 4 to 12 of startup.c. -/
inductive Sym
  | _start_vector
  | _stored_data
  | _start_data
  | _end_data
  | _start_bss
  | _end_bss
  | _end_stack
  | _start_heap
  | _global_pointer
  deriving DecidableEq

/-- Result of linking: the address given to each linker symbol. -/
abbrev Link := Sym → Nat

/-- Width of a register and of an address on the RV32 target. -/
def XLEN : Nat := 32

/-- Integer registers of RV32 under their ABI names. -/
inductive Reg
  | zero
  | ra
  | sp
  | gp
  | tp
  | t (i : Fin 7)
  | s (i : Fin 12)
  | a (i : Fin 8)
  deriving DecidableEq

/-- Machine-mode control and status registers that govern traps and interrupts. -/
inductive Csr
  | mstatus
  | mie
  | mip
  | mtvec
  | mepc
  | mcause
  deriving DecidableEq

/-- Functions named in startup.c; `main` is declared `extern`. -/
inductive Fn
  | _reset
  | _start
  | main
  deriving DecidableEq

/-- Kinds of operation the machine can perform, recorded as they execute. -/
inductive Event
  | regWrite (rd : Reg)
  | csrWrite (c : Csr)
  | load (addr : Nat)
  | store (addr : Nat)
  | branch
  | call (f : Fn)
  | ret
  deriving DecidableEq

/-- Architectural state: integer registers, CSRs and byte-addressed memory. -/
structure Machine where
  reg : Reg → Nat
  csr : Csr → Nat
  mem : Nat → Nat

/-- Machine state together with the operations executed so far. -/
structure Run where
  m : Machine
  trace : List Event

/-- Register write; `x0` is hard-wired to zero and ignores writes. -/
def Machine.setReg (m : Machine) (rd : Reg) (v : Nat) : Machine :=
  if rd = Reg.zero then m
  else { m with reg := fun r => if r = rd then v % 2 ^ XLEN else m.reg r }

/-- Statement `asm volatile("la rd, sym")`: load the address of `sym` into `rd`. -/
def la (link : Link) (rd : Reg) (sym : Sym) (r : Run) : Run :=
  { m := r.m.setReg rd (link sym), trace := r.trace ++ [Event.regWrite rd] }

/-- Statement `f();` as the source has it: an unconditional transfer of
control to `f`, which by itself changes no register and no memory.  The same
holds of a tail call.  The call instruction of a build, which sets `ra`, is
`jal` below. -/
def call (f : Fn) (r : Run) : Run :=
  { r with trace := r.trace ++ [Event.call f] }

/-- Source `void _start(void) { main(); }`, lines 36 to 38, statement for
statement.  The parameter `main` stands for the externally defined entry
function: it maps the state in which it is entered to the outcome of running
it.  The frame code a build may give this non-naked function, and the return
of `main`, are in `_start_built` below. -/
def _start {α : Type} (main : Run → α) (r : Run) : α :=
  main (call Fn.main r)

/-- Source `_reset`, lines 24 to 33, statement for statement.  The
`csrw mtvec` statement of line 29 is a comment in the source and hence is no
part of the body. -/
def _reset {α : Type} (link : Link) (main : Run → α) (r : Run) : α :=
  let r := la link Reg.gp Sym._global_pointer r
  let r := la link Reg.sp Sym._end_stack r
  _start main (call Fn._start r)

/-- State in which `main` is entered at the level of the statements: the
reset path run with a `main` that hands back the state it receives. -/
def atMain (link : Link) (r : Run) : Run :=
  _reset link id r

/-- Statements executed between reset and entry into `main`. -/
def pathEvents (link : Link) (r : Run) : List Event :=
  (atMain link r).trace.drop r.trace.length

/-- Dependence of the reset path on a linker symbol: two runs from one
initial state whose link maps differ only at `s` enter `main` in different
states. -/
def DependsOn (s : Sym) : Prop :=
  ∃ (l₁ l₂ : Link) (r : Run), (∀ t, t ≠ s → l₁ t = l₂ t) ∧ atMain l₁ r ≠ atMain l₂ r

/-! ## Built code

The source fixes the statements of the two routines, not the instructions a
build emits for them.  `_reset` is `naked`, so it gets no frame code, but
`_start` is an ordinary function: a build may give it a stack frame, reach
`main` by a tail call, or expand it inside `_reset`.  A call instruction
sets the return-address register.  The definitions below describe the
instructions of a build, with the choices of the build as a parameter. -/

/-- Choices the source leaves to the build for the code of `_start` and for
its call in `_reset`. -/
structure Build where
  /-- The body of `_start` is expanded in `_reset`; no call of `_start` occurs. -/
  inlineStart : Bool
  /-- Bytes of stack `_start` reserves before it calls `main`; zero when it
  keeps no frame and reaches `main` by a tail call. -/
  frame : Nat
  /-- Registers the frame code of `_start` saves, each with its byte offset
  from the lowered stack pointer. -/
  saves : List (Reg × Nat)
  /-- The frame code sets the frame pointer `s0` to the stack pointer `_start`
  was entered with. -/
  framePointer : Bool
  /-- Address of the end of `_reset`, just after its call instruction. -/
  retReset : Nat
  /-- Address in `_start` just after its call of `main`. -/
  retStart : Nat

/-- Build in which `_start` keeps a 16-byte frame holding the return address. -/
def Build.framed : Build :=
  { inlineStart := false, frame := 16, saves := [(Reg.ra, 12)], framePointer := false,
    retReset := 0x80000014, retStart := 0x8000020c }

/-- Bytes by which the stack pointer at entry into `main` lies below the one
`_reset` set: the frame of `_start`, unless `_start` is expanded in the naked
`_reset`, which has no frame. -/
def Build.frameUsed (b : Build) : Nat :=
  if b.inlineStart then 0 else b.frame

/-- Instruction writing a value to an integer register. -/
def wr (rd : Reg) (v : Nat) (r : Run) : Run :=
  { m := r.m.setReg rd v, trace := r.trace ++ [Event.regWrite rd] }

/-- Instruction `addi sp, sp, -n`: reserve `n` bytes of stack. -/
def lowerSp (n : Nat) (r : Run) : Run :=
  wr Reg.sp (r.m.reg Reg.sp + (2 ^ XLEN - n % 2 ^ XLEN)) r

/-- Instruction `addi sp, sp, n`: release `n` bytes of stack. -/
def raiseSp (n : Nat) (r : Run) : Run :=
  wr Reg.sp (r.m.reg Reg.sp + n) r

/-- Write of one byte of memory; addresses wrap at the address width. -/
def Machine.storeByte (m : Machine) (addr v : Nat) : Machine :=
  { m with mem := fun a => if a = addr % 2 ^ XLEN then v % 256 else m.mem a }

/-- Little-endian write of a 32-bit word. -/
def Machine.storeWord (m : Machine) (addr v : Nat) : Machine :=
  (((m.storeByte addr v).storeByte (addr + 1) (v / 256)).storeByte
    (addr + 2) (v / 65536)).storeByte (addr + 3) (v / 16777216)

/-- Little-endian read of a 32-bit word. -/
def Machine.loadWord (m : Machine) (addr : Nat) : Nat :=
  m.mem (addr % 2 ^ XLEN) % 256
    + 256 * (m.mem ((addr + 1) % 2 ^ XLEN) % 256)
    + 65536 * (m.mem ((addr + 2) % 2 ^ XLEN) % 256)
    + 16777216 * (m.mem ((addr + 3) % 2 ^ XLEN) % 256)

/-- Instruction `sw rs, off(sp)`. -/
def sw (rs : Reg) (off : Nat) (r : Run) : Run :=
  { m := r.m.storeWord (r.m.reg Reg.sp + off) (r.m.reg rs),
    trace := r.trace ++ [Event.store ((r.m.reg Reg.sp + off) % 2 ^ XLEN)] }

/-- Instruction `lw rd, off(sp)`. -/
def lw (rd : Reg) (off : Nat) (r : Run) : Run :=
  { m := r.m.setReg rd (r.m.loadWord (r.m.reg Reg.sp + off)),
    trace := r.trace ++ [Event.load ((r.m.reg Reg.sp + off) % 2 ^ XLEN)] }

/-- Call instruction: control passes to `f` and `ra` receives the return
address `back`. -/
def jal (f : Fn) (back : Nat) (r : Run) : Run :=
  { m := r.m.setReg Reg.ra back, trace := r.trace ++ [Event.call f] }

/-- Return instruction: control passes to the address held in `ra`. -/
def ret (r : Run) : Run :=
  { r with trace := r.trace ++ [Event.ret] }

/-- Frame code at the entry of a framed `_start`: reserve the frame, save
the registers, set the frame pointer when the build uses one. -/
def prologue (b : Build) (r : Run) : Run :=
  let r := b.saves.foldl (fun acc p => sw p.1 p.2 acc) (lowerSp b.frame r)
  if b.framePointer then wr (Reg.s 0) (r.m.reg Reg.sp + b.frame) r else r

/-- Frame code at the exit of a framed `_start`: restore the saved registers
and release the frame. -/
def epilogue (b : Build) (r : Run) : Run :=
  raiseSp b.frame (b.saves.foldl (fun acc p => lw p.1 p.2 acc) r)

/-- Built code of `_start` up to the transfer of control to `main`. -/
def startEntry (b : Build) (r : Run) : Run :=
  if b.frame = 0 then call Fn.main r
  else jal Fn.main b.retStart (prologue b r)

/-- Built code of `_start` after `main` has returned.  Without a frame
`main` was tail-called and returns straight to the caller of `_start`. -/
def startExit (b : Build) (r : Run) : Run :=
  if b.frame = 0 then r else ret (epilogue b r)

/-- Built `_start`, lines 36 to 38.  The parameter `main` maps the state in
which `main` is entered to the state in which it returns, or to `none` when
it does not return.  The result is the state in which control is back at the
caller of `_start`. -/
def _start_built (b : Build) (main : Run → Option Run) (r : Run) : Option Run :=
  (main (startEntry b r)).map (startExit b)

/-- Built `_reset`, lines 24 to 33.  The result is the state in which control
reaches the end of the body of `_reset`, which being `naked` has no return
instruction; `none` when `main` does not return. -/
def _reset_built (b : Build) (link : Link) (main : Run → Option Run) (r : Run) :
    Option Run :=
  let r := la link Reg.gp Sym._global_pointer r
  let r := la link Reg.sp Sym._end_stack r
  if b.inlineStart then main (jal Fn.main b.retReset r)
  else _start_built b main (jal Fn._start b.retReset r)

/-- State in which `_reset` passes control on, after its two `asm` statements. -/
def atHandoff (link : Link) (r : Run) : Run :=
  la link Reg.sp Sym._end_stack (la link Reg.gp Sym._global_pointer r)

/-- State in which the built reset path enters `main`. -/
def entryBuilt (b : Build) (link : Link) (r : Run) : Run :=
  if b.inlineStart then jal Fn.main b.retReset (atHandoff link r)
  else startEntry b (jal Fn._start b.retReset (atHandoff link r))

/-- Code of the built reset path that runs once `main` has returned. -/
def exitBuilt (b : Build) (r : Run) : Run :=
  if b.inlineStart then r else startExit b r

/-- Sample link map used to evaluate the definitions. -/
def sampleLink : Link
  | Sym._start_vector => 0x80000100
  | Sym._stored_data => 0x80001000
  | Sym._start_data => 0x80002000
  | Sym._end_data => 0x80002100
  | Sym._start_bss => 0x80002100
  | Sym._end_bss => 0x80002400
  | Sym._end_stack => 0x80004000
  | Sym._start_heap => 0x80002400
  | Sym._global_pointer => 0x80002800

/-- Sample state at reset: stale register and CSR contents, patterned memory,
nothing executed yet. -/
def sampleRun : Run :=
  { m := { reg := fun x => if x = Reg.zero then 0 else 0xdeadbeef,
           csr := fun c => if c = Csr.mtvec then 0x20 else 0,
           mem := fun a => a % 251 },
    trace := [] }

/-! ## Shared lemmas -/

theorem atMain_eq (link : Link) (r : Run) :
    atMain link r =
      call Fn.main (call Fn._start
        (la link Reg.sp Sym._end_stack (la link Reg.gp Sym._global_pointer r))) := rfl

theorem reset_eq_main_atMain {α : Type} (link : Link) (main : Run → α) (r : Run) :
    _reset link main r = main (atMain link r) := rfl

theorem atMain_trace (link : Link) (r : Run) :
    (atMain link r).trace =
      r.trace ++ [Event.regWrite Reg.gp, Event.regWrite Reg.sp,
        Event.call Fn._start, Event.call Fn.main] := by
  simp [atMain_eq, call, la]

theorem pathEvents_eq (link : Link) (r : Run) :
    pathEvents link r =
      [Event.regWrite Reg.gp, Event.regWrite Reg.sp,
        Event.call Fn._start, Event.call Fn.main] := by
  simp [pathEvents, atMain_trace]

theorem atMain_reg (link : Link) (r : Run) (x : Reg) :
    (atMain link r).m.reg x =
      if x = Reg.sp then link Sym._end_stack % 2 ^ XLEN
      else if x = Reg.gp then link Sym._global_pointer % 2 ^ XLEN
      else r.m.reg x := by
  simp [atMain_eq, call, la, Machine.setReg]

theorem atMain_csr (link : Link) (r : Run) : (atMain link r).m.csr = r.m.csr := by
  simp [atMain_eq, call, la, Machine.setReg]

theorem atMain_mem (link : Link) (r : Run) : (atMain link r).m.mem = r.m.mem := by
  simp [atMain_eq, call, la, Machine.setReg]

theorem not_dependsOn_of_unused (s : Sym) (h₁ : s ≠ Sym._end_stack)
    (h₂ : s ≠ Sym._global_pointer) : ¬ DependsOn s := by
  rintro ⟨l₁, l₂, r, hagree, hne⟩
  apply hne
  have hs : l₁ Sym._end_stack = l₂ Sym._end_stack := hagree _ (Ne.symm h₁)
  have hg : l₁ Sym._global_pointer = l₂ Sym._global_pointer := hagree _ (Ne.symm h₂)
  simp [atMain_eq, la, hs, hg]

theorem dependsOn_end_stack : DependsOn Sym._end_stack := by
  refine ⟨sampleLink, fun t => if t = Sym._end_stack then 0x80008000 else sampleLink t,
    sampleRun, ?_, ?_⟩
  · intro t ht
    simp [ht]
  · intro h
    have h2 := congrArg (fun x => x.m.reg Reg.sp) h
    simp [atMain_reg, sampleLink, XLEN] at h2

theorem dependsOn_global_pointer : DependsOn Sym._global_pointer := by
  refine ⟨sampleLink, fun t => if t = Sym._global_pointer then 0x80003000 else sampleLink t,
    sampleRun, ?_, ?_⟩
  · intro t ht
    simp [ht]
  · intro h
    have h2 := congrArg (fun x => x.m.reg Reg.gp) h
    simp [atMain_reg, sampleLink, XLEN] at h2

/-! ## Lemmas on the built code -/

theorem foldl_sw_reg (saves : List (Reg × Nat)) (r : Run) :
    (saves.foldl (fun acc p => sw p.1 p.2 acc) r).m.reg = r.m.reg := by
  induction saves generalizing r with
  | nil => rfl
  | cons p ps ih =>
    rw [List.foldl_cons, ih]
    rfl

theorem reset_built_eq (b : Build) (link : Link) (main : Run → Option Run) (r : Run) :
    _reset_built b link main r = (main (entryBuilt b link r)).map (exitBuilt b) := by
  have hx : b.inlineStart = false → exitBuilt b = startExit b := by
    intro hb
    funext x
    simp [exitBuilt, hb]
  have hy : b.inlineStart = true → exitBuilt b = id := by
    intro hb
    funext x
    simp [exitBuilt, hb]
  cases hb : b.inlineStart
  · simp [_reset_built, _start_built, entryBuilt, atHandoff, hb, hx hb]
  · simp [_reset_built, entryBuilt, atHandoff, hb, hy hb]

theorem atHandoff_sp (link : Link) (r : Run) :
    (atHandoff link r).m.reg Reg.sp = link Sym._end_stack % 2 ^ XLEN := by
  simp [atHandoff, la, Machine.setReg]

theorem prologue_sp (b : Build) (r : Run) :
    (prologue b r).m.reg Reg.sp =
      (r.m.reg Reg.sp + (2 ^ XLEN - b.frame % 2 ^ XLEN)) % 2 ^ XLEN := by
  cases hf : b.framePointer <;>
    simp [prologue, hf, wr, Machine.setReg, foldl_sw_reg, lowerSp]

theorem entryBuilt_sp (b : Build) (link : Link) (r : Run) :
    (entryBuilt b link r).m.reg Reg.sp =
      (link Sym._end_stack % 2 ^ XLEN + (2 ^ XLEN - b.frameUsed % 2 ^ XLEN)) % 2 ^ XLEN := by
  cases hb : b.inlineStart
  · by_cases hf : b.frame = 0
    · simp [entryBuilt, startEntry, Build.frameUsed, hb, hf, call, jal, Machine.setReg,
        atHandoff_sp]
    · simp [entryBuilt, startEntry, Build.frameUsed, hb, hf, jal, Machine.setReg,
        prologue_sp, atHandoff_sp]
  · simp [entryBuilt, Build.frameUsed, hb, jal, Machine.setReg, atHandoff_sp]

/-- C1 as stated fails: in the build whose `_start` keeps a 16-byte frame,
`main` is entered with `sp` sixteen bytes below the address of `_end_stack`. -/
theorem framed_start_lowers_sp :
    sampleLink Sym._end_stack = 0x80004000 ∧
      (entryBuilt Build.framed sampleLink sampleRun).m.reg Reg.sp = 0x80003ff0 ∧
      (entryBuilt Build.framed sampleLink sampleRun).m.reg Reg.sp
        ≠ sampleLink Sym._end_stack := by
  decide

/-- C1 amended: for every build, every state at reset and every 32-bit
address of `_end_stack`, `sp` holds that address when `_reset` passes control
on after its two `asm` statements; `main` is entered with `sp` lowered from
that address by the frame `_start` keeps, hence with `sp` equal to the
address exactly when `_start` keeps no frame. -/
theorem reset_sp_at_handoff_and_entry (b : Build) (link : Link) (r : Run)
    (h : link Sym._end_stack < 2 ^ XLEN) :
    (∀ main : Run → Option Run,
        _reset_built b link main r = (main (entryBuilt b link r)).map (exitBuilt b)) ∧
      (atHandoff link r).m.reg Reg.sp = link Sym._end_stack ∧
      (entryBuilt b link r).m.reg Reg.sp =
        (link Sym._end_stack + (2 ^ XLEN - b.frameUsed % 2 ^ XLEN)) % 2 ^ XLEN ∧
      ((entryBuilt b link r).m.reg Reg.sp = link Sym._end_stack ↔
        b.frameUsed % 2 ^ XLEN = 0) ∧
      (b.frameUsed ≤ link Sym._end_stack →
        (entryBuilt b link r).m.reg Reg.sp = link Sym._end_stack - b.frameUsed) := by
  have hN : 2 ^ XLEN = 4294967296 := by norm_num [XLEN]
  have hsp := entryBuilt_sp b link r
  rw [Nat.mod_eq_of_lt h] at hsp
  refine ⟨fun main => reset_built_eq b link main r, ?_, hsp, ?_, ?_⟩
  · rw [atHandoff_sp, Nat.mod_eq_of_lt h]
  · rw [hsp]
    rw [hN] at h ⊢
    omega
  · intro hle
    rw [hsp]
    rw [hN] at h ⊢
    omega

theorem reset_sp_at_handoff_and_entry_witness :
    sampleLink Sym._end_stack < 2 ^ XLEN ∧
      Build.framed.frameUsed ≤ sampleLink Sym._end_stack ∧
      (entryBuilt Build.framed sampleLink sampleRun).m.reg Reg.sp =
        sampleLink Sym._end_stack - Build.framed.frameUsed :=
  ⟨by decide, by decide,
    (reset_sp_at_handoff_and_entry Build.framed sampleLink sampleRun (by decide)).2.2.2.2
      (by decide)⟩

/-- C2: for every state at reset and every 32-bit address of `_global_pointer`,
whatever `main` is, `_reset` runs `main` from a state whose `gp` register
holds the address of `_global_pointer`. -/
theorem reset_gp_eq_global_pointer (link : Link) (r : Run)
    (h : link Sym._global_pointer < 2 ^ XLEN) :
    (∀ (α : Type) (main : Run → α), _reset link main r = main (atMain link r)) ∧
      (atMain link r).m.reg Reg.gp = link Sym._global_pointer := by
  refine ⟨fun _ _ => rfl, ?_⟩
  rw [atMain_reg, if_neg (by decide), if_pos rfl]
  exact Nat.mod_eq_of_lt h

theorem reset_gp_eq_global_pointer_witness :
    sampleLink Sym._global_pointer < 2 ^ XLEN ∧
      sampleRun.m.reg Reg.gp = 0xdeadbeef ∧
      (atMain sampleLink sampleRun).m.reg Reg.gp = 0x80002800 :=
  ⟨by decide, by decide,
    (reset_gp_eq_global_pointer sampleLink sampleRun (by decide)).2⟩

/-- C5 as stated fails: it is not the case that each of the seven listed
linker symbols influences the state handed to `main`. -/
theorem not_every_listed_symbol_matters :
    ¬ (∀ s ∈ [Sym._end_stack, Sym._global_pointer, Sym._start_data, Sym._end_data,
        Sym._start_bss, Sym._end_bss, Sym._start_heap], DependsOn s) := by
  intro h
  exact not_dependsOn_of_unused Sym._start_data (by decide) (by decide)
    (h Sym._start_data (by decide))

/-- C5 amended: the reset path depends on `_end_stack` and on
`_global_pointer`, and on no other linker symbol: runs whose link maps differ
only at another symbol hand identical states to `main`. -/
theorem reset_depends_exactly_on_stack_and_gp :
    DependsOn Sym._end_stack ∧ DependsOn Sym._global_pointer ∧
      ∀ s, s ≠ Sym._end_stack → s ≠ Sym._global_pointer →
        ∀ (l₁ l₂ : Link) (r : Run), (∀ t, t ≠ s → l₁ t = l₂ t) →
          atMain l₁ r = atMain l₂ r := by
  refine ⟨dependsOn_end_stack, dependsOn_global_pointer, ?_⟩
  intro s h₁ h₂ l₁ l₂ r hagree
  by_contra hne
  exact not_dependsOn_of_unused s h₁ h₂ ⟨l₁, l₂, r, hagree, hne⟩

theorem reset_depends_exactly_on_stack_and_gp_witness :
    atMain sampleLink sampleRun =
      atMain (fun t => if t = Sym._start_heap then 0x80003000 else sampleLink t)
        sampleRun :=
  reset_depends_exactly_on_stack_and_gp.2.2 Sym._start_heap (by decide) (by decide)
    sampleLink _ sampleRun (fun t ht => by simp [ht])

/-- C6: `_reset` and `_start` write no CSR: at entry into `main` the trap
vector `mtvec` and the interrupt-enable registers `mstatus` and `mie`, like
every other CSR, hold their values from reset. -/
theorem reset_keeps_csrs (link : Link) (r : Run) :
    (atMain link r).m.csr Csr.mtvec = r.m.csr Csr.mtvec ∧
      (atMain link r).m.csr Csr.mstatus = r.m.csr Csr.mstatus ∧
      (atMain link r).m.csr Csr.mie = r.m.csr Csr.mie ∧
      (atMain link r).m.csr = r.m.csr ∧
      ∀ c, Event.csrWrite c ∉ pathEvents link r := by
  refine ⟨?_, ?_, ?_, atMain_csr link r, ?_⟩
  · rw [atMain_csr]
  · rw [atMain_csr]
  · rw [atMain_csr]
  · intro c
    rw [pathEvents_eq]
    simp

/-- C7: the reset path copies no `.data` and zeroes no `.bss`: every byte of
the two regions, like all of memory, holds at entry into `main` what it held
at reset, and the path performs no load (so none of `_stored_data`) and no
store. -/
theorem reset_keeps_data_and_bss (link : Link) (r : Run) :
    (∀ a, (link Sym._start_data ≤ a ∧ a < link Sym._end_data) ∨
        (link Sym._start_bss ≤ a ∧ a < link Sym._end_bss) →
        (atMain link r).m.mem a = r.m.mem a) ∧
      (atMain link r).m.mem = r.m.mem ∧
      Event.load (link Sym._stored_data) ∉ pathEvents link r ∧
      (∀ a, Event.load a ∉ pathEvents link r) ∧
      ∀ a, Event.store a ∉ pathEvents link r := by
  refine ⟨fun a _ => by rw [atMain_mem], atMain_mem link r, ?_, ?_, ?_⟩
  · rw [pathEvents_eq]; simp
  · intro a; rw [pathEvents_eq]; simp
  · intro a; rw [pathEvents_eq]; simp

theorem reset_keeps_data_and_bss_witness :
    (sampleLink Sym._start_data ≤ 0x80002010 ∧ 0x80002010 < sampleLink Sym._end_data) ∧
      (atMain sampleLink sampleRun).m.mem 0x80002010 = 0x80002010 % 251 :=
  ⟨⟨by decide, by decide⟩,
    (reset_keeps_data_and_bss sampleLink sampleRun).1 0x80002010
      (Or.inl ⟨by decide, by decide⟩)⟩

end Startup
